import Mathlib

/-!
Verification of the CBDA subsampling engine (`create_sets.py`).

The Python source is shallowly embedded: each relevant function or method
is translated into an executable Lean definition, with randomness made
explicit (a shuffled list, a list of drawn integers, a sampling result)
and file-system effects made explicit (event traces, on-disk state
records, fallible `Except` results).  Theorems then settle the frozen
claims about the program.
-/

/-- Python `int()` applied to a nonnegative-or-negative rational:
truncation toward zero. -/
def pyTrunc (q : ℚ) : ℤ :=
  if 0 ≤ q then ⌊q⌋ else -⌊-q⌋

/-- `SelectionSet.define_output_columns` (create_sets.py lines 146-160).
`column_ordinals` is a Python set; its iteration order is arbitrary, so the
embedding takes the listed elements in an arbitrary order (theorems assume
`Nodup`, which a Python set guarantees).  The method builds
`[case_column, outcome_column]` followed by the ascending sort of the
column ordinals. -/
def define_output_columns (case_column outcome_column : ℤ)
    (column_ordinals : List ℤ) : List ℤ :=
  case_column :: outcome_column :: column_ordinals.insertionSort (· ≤ ·)

/-- The list `[2, 3, ..., line_count]` built by
`define_available_ordinals` via `range(2, original_line_count + 1)`
(create_sets.py line 915). -/
def data_ordinals (line_count : ℕ) : List ℕ :=
  List.range' 2 (line_count - 1)

/-- `define_available_ordinals` (create_sets.py lines 903-941).
`shuffled` is the data-ordinal list after `random.shuffle`; theorems
assume it is a permutation of `data_ordinals line_count`.  The training
ordinal count is `int(training_percent * data_ordinal_count)`; the
function exits fatally (`.error`) when either requested per-set row count
is not strictly below the corresponding pool size, and otherwise returns
the two pools (the `take`/`drop` split of the shuffled list). -/
def define_available_ordinals (shuffled : List ℕ) (training_percent : ℚ)
    (training_row_count validation_row_count : ℕ) :
    Except Unit (List ℕ × List ℕ) :=
  let data_ordinal_count : ℕ := shuffled.length
  let training_ordinal_count : ℕ :=
    (pyTrunc (training_percent * data_ordinal_count)).toNat
  let validation_ordinal_count : ℕ := data_ordinal_count - training_ordinal_count
  if training_row_count ≥ training_ordinal_count ∨
      validation_row_count ≥ validation_ordinal_count then
    .error ()
  else
    .ok (shuffled.take training_ordinal_count,
         shuffled.drop training_ordinal_count)

/-- C4: for any `SelectionSet` with distinct column ordinals,
`define_output_columns` yields `[case_column, outcome_column]` followed by
the column ordinals in strictly ascending order, and the result does not
depend on the order the column ordinals were sampled or supplied in. -/
theorem define_output_columns_spec (case_column outcome_column : ℤ)
    (co : List ℤ) (hnd : co.Nodup) :
    (define_output_columns case_column outcome_column co).take 2 =
      [case_column, outcome_column] ∧
    ((define_output_columns case_column outcome_column co).drop 2).Perm co ∧
    ((define_output_columns case_column outcome_column co).drop 2).Sorted (· < ·) ∧
    ∀ co2 : List ℤ, co2.Perm co →
      define_output_columns case_column outcome_column co2 =
        define_output_columns case_column outcome_column co := by
  refine ⟨rfl, ?_, ?_, ?_⟩
  · simpa [define_output_columns] using List.perm_insertionSort (α := ℤ) (· ≤ ·) co
  · have hs : (co.insertionSort (· ≤ ·)).Sorted (· ≤ ·) :=
      List.sorted_insertionSort (· ≤ ·) co
    have hnd2 : (co.insertionSort (· ≤ ·)).Nodup :=
      (List.perm_insertionSort (· ≤ ·) co).nodup_iff.mpr hnd
    simpa [define_output_columns] using hs.lt_of_le hnd2
  · intro co2 hperm
    have h1 : (co2.insertionSort (· ≤ ·)).Perm (co.insertionSort (· ≤ ·)) :=
      ((List.perm_insertionSort (· ≤ ·) co2).trans hperm).trans
        (List.perm_insertionSort (· ≤ ·) co).symm
    have heq : co2.insertionSort (· ≤ ·) = co.insertionSort (· ≤ ·) :=
      List.eq_of_perm_of_sorted h1 (List.sorted_insertionSort (· ≤ ·) co2)
        (List.sorted_insertionSort (· ≤ ·) co)
    simp [define_output_columns, heq]

/-- Witness for C4 at a concrete input. -/
theorem define_output_columns_spec_witness :
    (define_output_columns 1 2 [9, 4, 6]).take 2 = [1, 2] ∧
    ((define_output_columns 1 2 [9, 4, 6]).drop 2).Perm [9, 4, 6] ∧
    ((define_output_columns 1 2 [9, 4, 6]).drop 2).Sorted (· < ·) ∧
    ∀ co2 : List ℤ, co2.Perm [9, 4, 6] →
      define_output_columns 1 2 co2 = define_output_columns 1 2 [9, 4, 6] :=
  define_output_columns_spec 1 2 [9, 4, 6] (by decide)

/-- C1: when `define_available_ordinals` returns normally, the training
and validation pools are disjoint, together they cover `{2, ..., line_count}`
with no ordinal appearing twice, and the training pool has exactly
`floor(training_percent * (line_count - 1))` elements. -/
theorem define_available_ordinals_partition (line_count : ℕ)
    (shuffled : List ℕ) (p : ℚ) (trc vrc : ℕ) (T V : List ℕ)
    (hL : 1 ≤ line_count)
    (hperm : shuffled.Perm (data_ordinals line_count))
    (hp0 : 0 < p) (hp1 : p < 1)
    (hres : define_available_ordinals shuffled p trc vrc = .ok (T, V)) :
    T.Disjoint V ∧
    (∀ x, (x ∈ T ∨ x ∈ V) ↔ (2 ≤ x ∧ x ≤ line_count)) ∧
    (T ++ V).Nodup ∧
    (T.length : ℤ) = ⌊p * ((line_count : ℚ) - 1)⌋ := by
  have hn : shuffled.length = line_count - 1 := by
    have := hperm.length_eq
    simpa [data_ordinals] using this
  -- the truncated product is a genuine floor, and is at most the list length
  have hnn : (0:ℚ) ≤ p * (shuffled.length : ℚ) := by positivity
  have htr : pyTrunc (p * (shuffled.length : ℚ)) =
      ⌊p * (shuffled.length : ℚ)⌋ := by
    simp [pyTrunc, hnn]
  have hfl0 : 0 ≤ ⌊p * (shuffled.length : ℚ)⌋ := Int.floor_nonneg.mpr hnn
  have hfl_le : ⌊p * (shuffled.length : ℚ)⌋ ≤ (shuffled.length : ℤ) := by
    have h1 : p * (shuffled.length : ℚ) ≤ (shuffled.length : ℚ) :=
      mul_le_of_le_one_left (by positivity) (le_of_lt hp1)
    simpa using Int.floor_le_floor h1
  have htc_le : (pyTrunc (p * (shuffled.length : ℚ))).toNat ≤ shuffled.length := by
    rw [htr]
    omega
  simp only [define_available_ordinals] at hres
  split at hres
  · exact absurd hres (by simp)
  · simp only [Except.ok.injEq, Prod.mk.injEq] at hres
    obtain ⟨hT, hV⟩ := hres
    have happ : T ++ V = shuffled := by
      rw [← hT, ← hV, List.take_append_drop]
    have hpermTV : (T ++ V).Perm (data_ordinals line_count) := by
      rw [happ]; exact hperm
    have hndTV : (T ++ V).Nodup := by
      refine hpermTV.nodup_iff.mpr ?_
      exact List.nodup_range' 2 (line_count - 1)
    have hdisj : T.Disjoint V := ((List.nodup_append).mp hndTV).2.2
    refine ⟨hdisj, ?_, hndTV, ?_⟩
    · intro x
      have hx : x ∈ T ++ V ↔ x ∈ data_ordinals line_count := hpermTV.mem_iff
      rw [List.mem_append] at hx
      rw [hx]
      simp only [data_ordinals, List.mem_range'_1]
      omega
    · have hlen : T.length = (pyTrunc (p * (shuffled.length : ℚ))).toNat := by
        rw [← hT]
        simpa using htc_le
      rw [hlen, htr]
      have hcast : ((line_count - 1 : ℕ) : ℚ) = (line_count : ℚ) - 1 := by
        push_cast [hL]
        ring
      rw [Int.toNat_of_nonneg hfl0, hn, hcast]

/-- Witness for C1 at a concrete input: `line_count = 5`, shuffled
ordinals `[3, 5, 2, 4]`, `training_percent = 1/2`. -/
theorem define_available_ordinals_partition_witness :
    [(3:ℕ), 5].Disjoint [2, 4] ∧
    (∀ x, (x ∈ [(3:ℕ), 5] ∨ x ∈ [2, 4]) ↔ (2 ≤ x ∧ x ≤ 5)) ∧
    ([(3:ℕ), 5] ++ [2, 4]).Nodup ∧
    (([(3:ℕ), 5].length : ℤ) = ⌊(1/2 : ℚ) * ((5 : ℚ) - 1)⌋) :=
  define_available_ordinals_partition 5 [3, 5, 2, 4] (1/2) 1 1 [3, 5] [2, 4]
    (by decide) (by decide) (by norm_num) (by norm_num)
    (by norm_num [define_available_ordinals, pyTrunc]; rfl)

/-- Outcome of one `TrainingSet(i, ...)` construction attempt inside
`create_selection_sets` (create_sets.py lines 957-987): the constructor
either succeeds, raises an `OSError` carrying an errno, or raises some
other exception. -/
inductive BuildOutcome
  | built : BuildOutcome
  | osError : ℤ → BuildOutcome
  | otherExc : BuildOutcome
deriving DecidableEq

/-- The list of integers `[s, s+1, ..., e-1]`, i.e. Python `range(s, e)`. -/
def intRange (s e : ℤ) : List ℤ :=
  (List.range (e - s).toNat).map fun (n : ℕ) => s + (n : ℤ)

/-- The `for i in range(starting_set_number, ending_set_number + 1)` loop
of `create_selection_sets` (create_sets.py lines 957-987): build each set
in turn; on success append it; on `OSError` with errno 24 stop the batch
at `i - 1` when more than one set has been built so far, otherwise exit
fatally (`.error`); any other failure exits fatally. -/
def create_sets_loop (build : ℤ → BuildOutcome) :
    List ℤ → List ℤ → ℤ → Except Unit (List ℤ × ℤ)
  | [], selection_sets, ending_set_number => .ok (selection_sets, ending_set_number)
  | i :: rest, selection_sets, ending_set_number =>
    match build i with
    | .built => create_sets_loop build rest (selection_sets ++ [i]) ending_set_number
    | .osError e =>
        if e = 24 ∧ 1 < selection_sets.length then .ok (selection_sets, i - 1)
        else .error ()
    | .otherExc => .error ()

/-- `create_selection_sets` (create_sets.py lines 943-990), abstracted
over the construction outcome of each `TrainingSet` ordinal.  Returns the
list of built set ordinals and the ending set number, or `.error` when
the run exits fatally via `sys.exit(1)`. -/
def create_selection_sets (build : ℤ → BuildOutcome)
    (starting_set_number training_set_count : ℤ) :
    Except Unit (List ℤ × ℤ) :=
  let ending_set_number :=
    min (starting_set_number - 1 + training_set_count) training_set_count
  create_sets_loop build (intRange starting_set_number (ending_set_number + 1))
    [] ending_set_number

/-- `program_start`, restricted to the phases relevant to pool definition
and set construction (create_sets.py lines 1130-1147):
`define_available_ordinals` runs first, and only if it returns normally
does the batch loop construct any selection set (and hence create any
output file). -/
def program_run (shuffled : List ℕ) (training_percent : ℚ)
    (training_row_count validation_row_count : ℕ)
    (build : ℤ → BuildOutcome) (training_set_count : ℤ) :
    Except Unit (List ℤ × ℤ) :=
  match define_available_ordinals shuffled training_percent
      training_row_count validation_row_count with
  | .error e => .error e
  | .ok _ => create_selection_sets build 1 training_set_count

theorem intRange_length (s e : ℤ) : (intRange s e).length = (e - s).toNat := by
  rw [intRange, List.length_map, List.length_range]

theorem mem_intRange {i s e : ℤ} : i ∈ intRange s e ↔ s ≤ i ∧ i < e := by
  simp only [intRange, List.mem_map, List.mem_range]
  constructor
  · rintro ⟨n, hn, rfl⟩
    omega
  · intro h
    exact ⟨(i - s).toNat, by omega, by omega⟩

theorem intRange_append {s k e : ℤ} (h1 : s ≤ k) (h2 : k ≤ e) :
    intRange s e = intRange s k ++ intRange k e := by
  have h3 : (e - s).toNat = (k - s).toNat + (e - k).toNat := by omega
  simp only [intRange, h3, List.range_add, List.map_append, List.map_map]
  congr 1
  apply List.map_congr_left
  intro n _
  simp only [Function.comp_apply]
  omega

theorem intRange_eq_cons {s e : ℤ} (h : s < e) :
    intRange s e = s :: intRange (s + 1) e := by
  rw [intRange_append (by omega : s ≤ s + 1) (by omega : s + 1 ≤ e)]
  have h1 : intRange s (s + 1) = [s] := by
    simp [intRange, List.range_succ]
  rw [h1]
  rfl

theorem create_sets_loop_all_built (build : ℤ → BuildOutcome)
    (l : List ℤ) : ∀ (sets : List ℤ) (ending : ℤ),
    (∀ i ∈ l, build i = .built) →
    create_sets_loop build l sets ending = .ok (sets ++ l, ending) := by
  induction l with
  | nil =>
    intro sets ending _
    simp [create_sets_loop]
  | cons i rest ih =>
    intro sets ending h
    have hi : build i = .built := h i (by simp)
    simp only [create_sets_loop, hi]
    rw [ih (sets ++ [i]) ending (fun j hj => h j (by simp [hj]))]
    simp

theorem create_sets_loop_split (build : ℤ → BuildOutcome)
    (l1 : List ℤ) : ∀ (k : ℤ) (l2 sets : List ℤ) (ending : ℤ),
    (∀ i ∈ l1, build i = .built) →
    create_sets_loop build (l1 ++ k :: l2) sets ending =
      (match build k with
       | .built => create_sets_loop build l2 (sets ++ l1 ++ [k]) ending
       | .osError e =>
           if e = 24 ∧ 1 < (sets ++ l1).length then .ok (sets ++ l1, k - 1)
           else .error ()
       | .otherExc => .error ()) := by
  induction l1 with
  | nil =>
    intro k l2 sets ending _
    simp only [List.nil_append, List.append_nil, create_sets_loop]
  | cons i rest ih =>
    intro k l2 sets ending h
    have hi : build i = .built := h i (by simp)
    simp only [List.cons_append, create_sets_loop, hi, List.append_eq]
    rw [ih k l2 (sets ++ [i]) ending (fun j hj => h j (by simp [hj]))]
    cases build k <;> simp [List.append_assoc]

/-- A batch where set 1 is built and set 2 raises `OSError` errno 24. -/
def buildOneThenExhaust : ℤ → BuildOutcome := fun i =>
  if i = 1 then .built else .osError 24

/-- A batch where sets 1, 2 are built and set 3 raises `OSError` errno 24. -/
def buildTwoThenExhaust : ℤ → BuildOutcome := fun i =>
  if i < 3 then .built else .osError 24

/-- C2 counterexample: with exactly one set already constructed in the
batch, an errno-24 failure on the next set makes `create_selection_sets`
exit fatally (the code requires `len(selection_sets) > 1`, i.e. more than
one prior success, before stopping the batch), instead of returning the
one built set with ending set number 1 as the claim requires. -/
theorem create_selection_sets_one_success_cex :
    create_selection_sets buildOneThenExhaust 1 3 = .error () ∧
    (Except.error () : Except Unit (List ℤ × ℤ)) ≠ .ok ([1], 1) := by
  constructor
  · rfl
  · simp

/-- C3: `define_available_ordinals` exits fatally (`sys.exit(1)`) exactly
when the requested training row count is at least the training pool size
or the requested validation row count is at least the validation pool
size; the exit is raised from `define_available_ordinals` itself, which
`program_start` runs before constructing any selection set, so the whole
run fails identically for every construction behaviour, before any
manifest or data file is created.  When both strict inequalities hold it
returns normally with both pools set. -/
theorem define_available_ordinals_fail_fast (shuffled : List ℕ) (p : ℚ)
    (trc vrc : ℕ) :
    (trc ≥ (pyTrunc (p * (shuffled.length : ℚ))).toNat ∨
        vrc ≥ shuffled.length - (pyTrunc (p * (shuffled.length : ℚ))).toNat →
      define_available_ordinals shuffled p trc vrc = .error () ∧
      ∀ build total, program_run shuffled p trc vrc build total = .error ()) ∧
    (trc < (pyTrunc (p * (shuffled.length : ℚ))).toNat ∧
        vrc < shuffled.length - (pyTrunc (p * (shuffled.length : ℚ))).toNat →
      define_available_ordinals shuffled p trc vrc =
        .ok (shuffled.take ((pyTrunc (p * (shuffled.length : ℚ))).toNat),
             shuffled.drop ((pyTrunc (p * (shuffled.length : ℚ))).toNat))) := by
  constructor
  · intro h
    have herr : define_available_ordinals shuffled p trc vrc = .error () := by
      simp only [define_available_ordinals]
      rw [if_pos h]
    refine ⟨herr, fun build total => ?_⟩
    simp [program_run, herr]
  · intro h
    simp only [define_available_ordinals]
    rw [if_neg]
    omega

/-- Witness for C3 at concrete inputs: with 4 data ordinals and
`training_percent = 1/2` the pools have 2 elements each, so requesting 2
training rows is fatal for every construction behaviour, while requesting
1 row of each returns both pools. -/
theorem define_available_ordinals_fail_fast_witness :
    (define_available_ordinals [3, 5, 2, 4] (1/2) 2 1 = .error () ∧
      ∀ build total,
        program_run [3, 5, 2, 4] (1/2) 2 1 build total = .error ()) ∧
    define_available_ordinals [3, 5, 2, 4] (1/2) 1 1 =
      .ok ([3, 5], [2, 4]) := by
  constructor
  · exact (define_available_ordinals_fail_fast [3, 5, 2, 4] (1/2) 2 1).1
      (by norm_num [pyTrunc])
  · have h := (define_available_ordinals_fail_fast [3, 5, 2, 4] (1/2) 1 1).2
      (by norm_num [pyTrunc]; omega)
    rw [h]
    norm_num [pyTrunc]
    exact ⟨rfl, rfl⟩

/-- Python list indexing `fields[i]`: negative indices address from the
end; out-of-range access raises IndexError (`.error`). -/
def pyIndex (fields : List String) (i : ℤ) : Except Unit String :=
  let j : ℤ := if i < 0 then i + fields.length else i
  if 0 ≤ j then
    match fields.get? j.toNat with
    | some s => .ok s
    | none => .error ()
  else .error ()

/-- `SelectionSet.check_line` (create_sets.py lines 218-249).  Result
`.ok none` means the ordinal is not in `row_ordinals` and nothing is
written; `.ok (some line)` is the line written to the set file (the
selected fields, 1-based ordinal `o` read at index `o - 1`, joined by
commas and newline-terminated); `.error ()` is an uncaught IndexError
from a field access. -/
def check_line (row_ordinals : Finset ℤ) (output_columns : Option (List ℤ))
    (ordinal : ℤ) (fields : List String) : Except Unit (Option String) :=
  if ordinal ∈ row_ordinals then
    match output_columns with
    | none => .ok (some (String.intercalate "," fields ++ "\n"))
    | some ocs => do
        let fields_to_write ← ocs.mapM (fun o => pyIndex fields (o - 1))
        .ok (some (String.intercalate "," fields_to_write ++ "\n"))
  else
    .ok none

theorem pyIndex_ok (fields : List String) (o : ℤ) (h1 : 1 ≤ o)
    (h2 : o ≤ (fields.length : ℤ)) :
    pyIndex fields (o - 1) = .ok ((fields.get? (o - 1).toNat).getD "") := by
  have hnat : (o - 1).toNat < fields.length := by omega
  have hneg : ¬(o - 1 < 0) := by omega
  have hpos : (0:ℤ) ≤ o - 1 := by omega
  simp only [pyIndex, if_neg hneg, if_pos hpos]
  rw [List.get?_eq_get hnat]
  rfl

theorem mapM_pyIndex_ok (fields : List String) (ocs : List ℤ)
    (h : ∀ o ∈ ocs, 1 ≤ o ∧ o ≤ (fields.length : ℤ)) :
    ocs.mapM (fun o => pyIndex fields (o - 1)) =
      .ok (ocs.map fun o => (fields.get? (o - 1).toNat).getD "") := by
  induction ocs with
  | nil => rfl
  | cons o rest ih =>
    have ho := h o (by simp)
    rw [List.mapM_cons, pyIndex_ok fields o ho.1 ho.2,
        ih (fun j hj => h j (by simp [hj]))]
    rfl

/-- C5: `check_line` writes exactly when the ordinal is a member of
`row_ordinals`; with `output_columns` set (and each 1-based ordinal in
bounds) it writes the fields at the positions of `output_columns`
(ordinal `o` read at 0-based index `o - 1`) joined by commas and
newline-terminated; with `output_columns` unset it writes the entire
field list; and in particular projecting `output_columns = [2, 5, 7]`
against the row `A,B,C,D,E,F,G` writes `B,E,G` plus a newline. -/
theorem check_line_projection (row_ordinals : Finset ℤ) (ordinal : ℤ)
    (fields : List String) :
    (ordinal ∉ row_ordinals → ∀ oc,
      check_line row_ordinals oc ordinal fields = .ok none) ∧
    (ordinal ∈ row_ordinals →
      check_line row_ordinals none ordinal fields =
        .ok (some (String.intercalate "," fields ++ "\n"))) ∧
    (∀ ocs : List ℤ, ordinal ∈ row_ordinals →
      (∀ o ∈ ocs, 1 ≤ o ∧ o ≤ (fields.length : ℤ)) →
      check_line row_ordinals (some ocs) ordinal fields =
        .ok (some (String.intercalate ","
          (ocs.map fun o => (fields.get? (o - 1).toNat).getD "") ++ "\n"))) ∧
    check_line {5} (some [2, 5, 7]) 5 ["A", "B", "C", "D", "E", "F", "G"] =
      .ok (some "B,E,G\n") := by
  refine ⟨?_, ?_, ?_, ?_⟩
  · intro h oc
    simp [check_line, h]
  · intro h
    simp [check_line, h]
  · intro ocs hmem hb
    simp only [check_line, if_pos hmem]
    rw [mapM_pyIndex_ok fields ocs hb]
    rfl
  · rfl

/-- Witness for C5 at concrete inputs. -/
theorem check_line_projection_witness :
    check_line {5} (some [2, 9]) 3 ["A", "B"] = .ok none ∧
    check_line {5} none 5 ["A", "B"] =
      .ok (some (String.intercalate "," ["A", "B"] ++ "\n")) ∧
    check_line {5} (some [2, 1]) 5 ["A", "B"] =
      .ok (some (String.intercalate ","
        ([2, 1].map fun o : ℤ =>
          ((["A", "B"].get? (o - 1).toNat).getD "")) ++ "\n")) := by
  refine ⟨?_, ?_, ?_⟩
  · exact (check_line_projection {5} 3 ["A", "B"]).1 (by decide) (some [2, 9])
  · exact (check_line_projection {5} 5 ["A", "B"]).2.1 (by decide)
  · exact (check_line_projection {5} 5 ["A", "B"]).2.2.1 [2, 1] (by decide)
      (by decide)

/-- Fatal outcomes of one scan-loop iteration. -/
inductive ScanError
  | delimiterMissing : ScanError
  | indexError : ScanError
deriving DecidableEq

/-- Python `line.rstrip` with the newline character: remove all trailing
newline characters (create_sets.py line 1029). -/
def rstripNewline (line : List Char) : List Char :=
  (line.reverse.dropWhile (· = '\n')).reverse

/-- Python `line.split(delimiter)` for a one-character delimiter. -/
def splitFields (delim : Char) : List Char → List (List Char)
  | [] => [[]]
  | c :: rest =>
    match splitFields delim rest with
    | [] => [[]]
    | f :: fs => if c = delim then [] :: f :: fs else (c :: f) :: fs

/-- One iteration of the scan loop of `process_original_file`
(create_sets.py lines 1011-1042), for a one-character delimiter.  The
only per-line validation is that the delimiter occurs in the line (fatal
data-format error otherwise); the line is then stripped of its trailing
newlines, split on the delimiter, and handed to every selection set's
`check_line`; an out-of-bounds field access there surfaces as an
IndexError. -/
def process_line (sets : List (Finset ℤ × Option (List ℤ))) (delimiter : Char)
    (ordinal : ℤ) (line : List Char) : Except ScanError (List (Option String)) :=
  if delimiter ∉ line then .error .delimiterMissing
  else
    let line_fields := (splitFields delimiter (rstripNewline line)).map
      fun f => (⟨f⟩ : String)
    sets.mapM fun st =>
      match check_line st.1 st.2 ordinal line_fields with
      | .ok w => .ok w
      | .error _ => .error .indexError

/-- C10: with `output_columns` set, `check_line` is safe under the
precondition that every selected 1-based column ordinal is at most the
number of fields (equivalently `len(fields) >= max(output_columns)`;
column ordinals are at least 1 throughout the program): every access
`fields[o - 1]` is then in bounds and no error is raised.  The scanner
performs no per-line column-count check — its only per-line validation is
delimiter presence, and a short line selected by no set passes — so a
selected source line with fewer fields than the largest output column
ordinal surfaces as an uncaught IndexError rather than a diagnosed
data-format error. -/
theorem check_line_short_line (row_ordinals : Finset ℤ) :
    (∀ (ordinal : ℤ) (fields : List String) (ocs : List ℤ),
      (∀ o ∈ ocs, 1 ≤ o ∧ o ≤ (fields.length : ℤ)) →
      ∃ w, check_line row_ordinals (some ocs) ordinal fields = .ok w) ∧
    check_line {4} (some [2, 5, 7]) 4 ["A", "B", "C"] = .error () ∧
    process_line [({4}, some [2, 5, 7])] ',' 4 "A,B,C\n".data =
      .error .indexError ∧
    process_line [({4}, some [2, 5, 7])] ',' 3 "A,B,C\n".data = .ok [none] := by
  refine ⟨?_, rfl, rfl, rfl⟩
  intro ordinal fields ocs hb
  by_cases hmem : ordinal ∈ row_ordinals
  · refine ⟨some (String.intercalate ","
      (ocs.map fun o => (fields.get? (o - 1).toNat).getD "") ++ "\n"), ?_⟩
    simp only [check_line, if_pos hmem]
    rw [mapM_pyIndex_ok fields ocs hb]
    rfl
  · exact ⟨none, by simp [check_line, hmem]⟩

/-- Witness for C10's safety direction at a concrete input. -/
theorem check_line_short_line_witness :
    ∃ w, check_line {4} (some [2, 1]) 4 ["A", "B"] = .ok w :=
  (check_line_short_line {4}).1 4 ["A", "B"] [2, 1] (by decide)

/-- The `while len(ordinals) < count` loop of
`SelectionSet.get_random_ordinals_exclude` (create_sets.py lines 176-202),
driven by an explicit stream of `random.randint(start, stop)` draws
(theorems assume every draw lies in `[start, stop]`).  Draws in `exclude`
or already collected are retried; `none` means the finite draw stream ran
out before `count` distinct admissible values were collected — the Python
loop would still be drawing. -/
def groeLoop (count : ℕ) (exclude : Finset ℤ) :
    List ℤ → Finset ℤ → Option (Finset ℤ)
  | [], ordinals =>
    if count ≤ ordinals.card then some ordinals else none
  | r :: rest, ordinals =>
    if count ≤ ordinals.card then some ordinals
    else groeLoop count exclude rest
      (if r ∈ exclude then ordinals else insert r ordinals)

/-- `SelectionSet.get_random_ordinals_exclude` (create_sets.py lines
176-202): run the collection loop starting from the empty set. -/
def get_random_ordinals_exclude (count : ℕ) (start stop : ℤ)
    (exclude : Finset ℤ) (draws : List ℤ) : Option (Finset ℤ) :=
  groeLoop count exclude draws ∅

theorem groeLoop_sound (count : ℕ) (exclude : Finset ℤ) (start stop : ℤ)
    (draws : List ℤ) :
    ∀ (ordinals s : Finset ℤ),
    (∀ r ∈ draws, start ≤ r ∧ r ≤ stop) →
    ordinals.card ≤ count →
    (∀ x ∈ ordinals, (start ≤ x ∧ x ≤ stop) ∧ x ∉ exclude) →
    groeLoop count exclude draws ordinals = some s →
    s.card = count ∧ ∀ x ∈ s, (start ≤ x ∧ x ≤ stop) ∧ x ∉ exclude := by
  induction draws with
  | nil =>
    intro ordinals s _ hcard hinv hres
    simp only [groeLoop] at hres
    split at hres
    · cases hres
      exact ⟨le_antisymm hcard (by assumption), hinv⟩
    · cases hres
  | cons r rest ih =>
    intro ordinals s hdraws hcard hinv hres
    simp only [groeLoop] at hres
    split at hres
    · cases hres
      exact ⟨le_antisymm hcard (by assumption), hinv⟩
    · rename_i hlt
      have hcard2 : ordinals.card < count := by omega
      refine ih _ s (fun j hj => hdraws j (by simp [hj])) ?_ ?_ hres
      · by_cases hr : r ∈ exclude
        · simpa [hr] using hcard
        · simp only [if_neg hr]
          have := Finset.card_insert_le r ordinals
          omega
      · intro x hx
        by_cases hr : r ∈ exclude
        · simp only [if_pos hr] at hx
          exact hinv x hx
        · simp only [if_neg hr, Finset.mem_insert] at hx
          rcases hx with rfl | hx
          · exact ⟨hdraws x (by simp), hr⟩
          · exact hinv x hx

theorem groeLoop_infeasible (count : ℕ) (exclude : Finset ℤ)
    (start stop : ℤ) (draws : List ℤ) :
    ∀ ordinals : Finset ℤ,
    (∀ r ∈ draws, start ≤ r ∧ r ≤ stop) →
    ordinals ⊆ Finset.Icc start stop \ exclude →
    (Finset.Icc start stop \ exclude).card < count →
    groeLoop count exclude draws ordinals = none := by
  induction draws with
  | nil =>
    intro ordinals _ hsub hsmall
    have := Finset.card_le_card hsub
    simp only [groeLoop]
    rw [if_neg (by omega)]
  | cons r rest ih =>
    intro ordinals hdraws hsub hsmall
    have := Finset.card_le_card hsub
    simp only [groeLoop]
    rw [if_neg (by omega)]
    refine ih _ (fun j hj => hdraws j (by simp [hj])) ?_ hsmall
    by_cases hr : r ∈ exclude
    · simpa [hr] using hsub
    · simp only [if_neg hr]
      intro x hx
      rcases Finset.mem_insert.mp hx with rfl | hx
      · have hrr := hdraws x (by simp)
        simp [Finset.mem_sdiff, Finset.mem_Icc, hrr.1, hrr.2, hr]
      · exact hsub hx

/-- C6 counterexample: the claim asserts the primitive "loops
indefinitely" (never returns) on any infeasible request, with feasibility
`count < (stop - start + 1) - |exclude|`.  The boundary request
`count = 1`, `start = stop = 0`, `exclude = ∅` is infeasible under that
formula, yet the loop returns `{0}` as soon as the draw `0` appears. -/
theorem get_random_ordinals_exclude_boundary_cex :
    ¬((1:ℤ) < (0 - 0 + 1) - ((∅ : Finset ℤ).card : ℤ)) ∧
    get_random_ordinals_exclude 1 0 0 ∅ [0] = some {0} := by
  constructor
  · decide
  · rfl

/-- C6 amended: whenever `get_random_ordinals_exclude` returns, its
result is a set of exactly `count` distinct integers in `[start, stop]`,
none of them in `exclude`; the primitive performs no feasibility check —
when `count` strictly exceeds the number of admissible values
`|[start, stop] \ exclude|` (which equals `(stop - start + 1) - |exclude|`
when `exclude ⊆ [start, stop]`) no draw sequence ever completes, so the
Python loop runs forever, while at `count` equal to that bound the loop
can still complete once the draws cover every admissible value. -/
theorem get_random_ordinals_exclude_spec (count : ℕ) (start stop : ℤ)
    (exclude : Finset ℤ) (draws : List ℤ) :
    (∀ s : Finset ℤ,
      (∀ r ∈ draws, start ≤ r ∧ r ≤ stop) →
      get_random_ordinals_exclude count start stop exclude draws = some s →
      s.card = count ∧ ∀ x ∈ s, (start ≤ x ∧ x ≤ stop) ∧ x ∉ exclude) ∧
    ((∀ r ∈ draws, start ≤ r ∧ r ≤ stop) →
      (Finset.Icc start stop \ exclude).card < count →
      get_random_ordinals_exclude count start stop exclude draws = none) ∧
    (start ≤ stop → exclude ⊆ Finset.Icc start stop →
      ((Finset.Icc start stop \ exclude).card : ℤ) =
        (stop - start + 1) - exclude.card) := by
  refine ⟨?_, ?_, ?_⟩
  · intro s hdraws hres
    exact groeLoop_sound count exclude start stop draws ∅ s hdraws
      (by simp) (by simp) hres
  · intro hdraws hsmall
    exact groeLoop_infeasible count exclude start stop draws ∅ hdraws
      (by simp) hsmall
  · intro hss hsub
    rw [Finset.card_sdiff hsub, Int.card_Icc]
    have h1 : exclude.card ≤ (Finset.Icc start stop).card :=
      Finset.card_le_card hsub
    rw [Int.card_Icc] at h1
    omega

/-- Witness for the amended C6 at concrete inputs: draws `[5, 5, 7]` with
`exclude = {6}` in `[1, 9]` collect `{5, 7}`; a request for 2 values from
the single-value range `[0, 0]` never completes. -/
theorem get_random_ordinals_exclude_spec_witness :
    ((insert 7 (insert 5 (insert 5 (∅ : Finset ℤ)))).card = 2 ∧
      ∀ x ∈ insert 7 (insert 5 (insert 5 (∅ : Finset ℤ))),
        ((1:ℤ) ≤ x ∧ x ≤ 9) ∧ x ∉ ({6} : Finset ℤ)) ∧
    get_random_ordinals_exclude 2 0 0 ∅ [0, 0, 0] = none := by
  constructor
  · exact (get_random_ordinals_exclude_spec 2 1 9 {6} [5, 5, 7]).1
      (insert 7 (insert 5 (insert 5 ∅))) (by decide) rfl
  · exact (get_random_ordinals_exclude_spec 2 0 0 ∅ [0, 0, 0]).2.1
      (by decide) (by decide)

/-- Artifacts a TrainingSet/ValidationSet pair can create on disk. -/
inductive Artifact
  | vRowManifest : Artifact
  | vColManifest : Artifact
  | vDataFile : Artifact
  | tRowManifest : Artifact
  | tDataFile : Artifact
deriving DecidableEq

/-- Observable events of the constructor models: pool sampling and file
creation/removal. -/
inductive Event
  | sampleRows : Event
  | sampleCols : Event
  | create : Artifact → Event
  | remove : Artifact → Event
deriving DecidableEq

/-- Exceptions the constructors can raise. -/
inductive InitErr
  | valueError : InitErr
  | osError : InitErr
deriving DecidableEq

/-- The artifacts created by a trace, in creation order. -/
def createdArtifacts (events : List Event) : List Artifact :=
  events.filterMap fun e =>
    match e with
    | .create a => some a
    | _ => none

/-- The artifacts still on disk after a trace. -/
def onDisk (events : List Event) : List Artifact :=
  events.foldl
    (fun acc e =>
      match e with
      | .create a => acc ++ [a]
      | .remove a => acc.erase a
      | _ => acc) []

/-- `ValidationSet.__init__` (create_sets.py lines 267-330), as the trace
of its observable effects.  `available` is `ValidationSet.available_ordinals`
(`none` when `define_available_ordinals` has not run); `column_set` is the
externally restricted column set or `none`; `sampledCols` is the value
`get_random_ordinals_exclude` returned when sampling was needed; `fail a`
says whether creating artifact `a` raises `OSError`.  Mirrors the source
order: guard, row sampling, column branch (supplied set used verbatim,
else sampled), row-ordinal manifest, column-ordinal manifest under the
source's `column_ordinals is not None` guard (both branches assign it, so
the guard always holds), then the data stream; on an `OSError` the
constructor runs `cleanup()` (removing what is on disk) and re-raises. -/
def validation_set_init (available : Option (List ℕ))
    (column_set : Option (List ℤ)) (sampledCols : List ℤ)
    (fail : Artifact → Bool) : Except InitErr Unit × List Event :=
  match available with
  | none => (.error .valueError, [])
  | some _ =>
    let ev1 : List Event := [.sampleRows]
    let branch : Option (List ℤ) × List Event :=
      match column_set with
      | some cs => (some cs, ev1)
      | none => (some sampledCols, ev1 ++ [.sampleCols])
    match branch with
    | (column_ordinals, ev2) =>
      if fail .vRowManifest then
        (.error .osError, ev2)
      else
        let ev3 := ev2 ++ [.create .vRowManifest]
        match column_ordinals with
        | none =>
          if fail .vDataFile then
            (.error .osError, ev3 ++ [.remove .vRowManifest])
          else (.ok (), ev3 ++ [.create .vDataFile])
        | some _ =>
          if fail .vColManifest then
            (.error .osError, ev3 ++ [.remove .vRowManifest])
          else
            let ev4 := ev3 ++ [.create .vColManifest]
            if fail .vDataFile then
              (.error .osError,
               ev4 ++ [.remove .vRowManifest, .remove .vColManifest])
            else (.ok (), ev4 ++ [.create .vDataFile])

/-- `TrainingSet.__init__` (create_sets.py lines 391-437): guard on
`TrainingSet.available_ordinals`, construct the owned `ValidationSet`
(exceptions propagate), sample the training rows, write the training
row-ordinal manifest, open the training data stream; on an `OSError` run
`cleanup()` — own artifacts first, then the cascade to the owned
validation set's `cleanup()` — and re-raise. -/
def training_set_init (t_available v_available : Option (List ℕ))
    (column_set : Option (List ℤ)) (sampledCols : List ℤ)
    (fail : Artifact → Bool) : Except InitErr Unit × List Event :=
  match t_available with
  | none => (.error .valueError, [])
  | some _ =>
    match validation_set_init v_available column_set sampledCols fail with
    | (.error e, ev) => (.error e, ev)
    | (.ok _, evV) =>
      let ev1 := evV ++ [.sampleRows]
      if fail .tRowManifest then
        (.error .osError,
         ev1 ++ [.remove .vRowManifest, .remove .vColManifest,
                 .remove .vDataFile])
      else
        let ev2 := ev1 ++ [.create .tRowManifest]
        if fail .tDataFile then
          (.error .osError,
           ev2 ++ [.remove .tRowManifest, .remove .vRowManifest,
                   .remove .vColManifest, .remove .vDataFile])
        else (.ok (), ev2 ++ [.create .tDataFile])

/-- No file creation fails. -/
def noFail : Artifact → Bool := fun _ => false

/-- C7 counterexample: when an external restricted column set IS
supplied, the constructor still writes the column-ordinal manifest —
both branches of the source assign `column_ordinals`, so the guard
`if self.column_ordinals is not None` always holds — contradicting the
claim that the column-ordinal manifest is created only when the column
ordinals were computed in the constructor. -/
theorem validation_set_init_col_manifest_cex :
    createdArtifacts
        (validation_set_init (some [2, 3]) (some [4, 5]) [] noFail).2 =
      [.vRowManifest, .vColManifest, .vDataFile] ∧
    Artifact.vColManifest ∈
      createdArtifacts
        (validation_set_init (some [2, 3]) (some [4, 5]) [] noFail).2 := by
  constructor
  · rfl
  · decide

/-- C7 amended: the `ValidationSet` constructor creates its artifacts in
the fixed order row-ordinal manifest, column-ordinal manifest, data
stream — the column-ordinal manifest is always written, whether the
column ordinals were sampled here or supplied as an external restricted
set, because both branches assign `column_ordinals` and the source guard
on it is therefore always true.  A failure partway through creates only a
prefix of this sequence, and the constructor removes everything it
created via `cleanup()` before re-raising, leaving nothing on disk. -/
theorem validation_set_init_artifact_order (av : List ℕ)
    (column_set : Option (List ℤ)) (sampledCols : List ℤ)
    (fail : Artifact → Bool) :
    createdArtifacts (validation_set_init (some av) column_set sampledCols fail).2 <+:
      [Artifact.vRowManifest, Artifact.vColManifest, Artifact.vDataFile] ∧
    ((validation_set_init (some av) column_set sampledCols fail).1 = .ok () →
      createdArtifacts (validation_set_init (some av) column_set sampledCols fail).2 =
        [Artifact.vRowManifest, Artifact.vColManifest, Artifact.vDataFile] ∧
      onDisk (validation_set_init (some av) column_set sampledCols fail).2 =
        [Artifact.vRowManifest, Artifact.vColManifest, Artifact.vDataFile]) ∧
    (∀ e, (validation_set_init (some av) column_set sampledCols fail).1 = .error e →
      onDisk (validation_set_init (some av) column_set sampledCols fail).2 = []) := by
  rcases column_set with _ | cs <;>
    by_cases f1 : fail .vRowManifest <;>
    by_cases f2 : fail .vColManifest <;>
    by_cases f3 : fail .vDataFile <;>
    refine ⟨?_, ?_, ?_⟩ <;>
    simp [validation_set_init, createdArtifacts, onDisk, f1, f2, f3] <;>
    decide

/-- Witness for the amended C7 at a concrete input: with a supplied
column set and a data-stream open failure, the constructor created the
two manifests (a prefix of the fixed order) and cleanup left nothing. -/
theorem validation_set_init_artifact_order_witness :
    createdArtifacts
        (validation_set_init (some [2, 3]) (some [4, 5]) []
          (fun a => a = .vDataFile)).2 <+:
      [Artifact.vRowManifest, Artifact.vColManifest, Artifact.vDataFile] ∧
    onDisk (validation_set_init (some [2, 3]) (some [4, 5]) []
        (fun a => a = .vDataFile)).2 = [] := by
  have h := validation_set_init_artifact_order [2, 3] (some [4, 5]) []
    (fun a => decide (a = .vDataFile))
  exact ⟨h.1, h.2.2 .osError rfl⟩

/-- C9: calling either constructor while the corresponding class-level
`available_ordinals` is still `None` raises `ValueError` immediately:
no ordinal is sampled and no file is created (the event trace is empty). -/
theorem init_requires_available_ordinals :
    (∀ (column_set : Option (List ℤ)) (sampledCols : List ℤ)
        (fail : Artifact → Bool),
      validation_set_init none column_set sampledCols fail =
        (.error .valueError, [])) ∧
    (∀ (v_available : Option (List ℕ)) (column_set : Option (List ℤ))
        (sampledCols : List ℤ) (fail : Artifact → Bool),
      training_set_init none v_available column_set sampledCols fail =
        (.error .valueError, [])) :=
  ⟨fun _ _ _ => rfl, fun _ _ _ _ => rfl⟩

/-- The file-related state of a `ValidationSet` object together with the
on-disk status of its artifacts: the `..._name_set` fields mirror
`... is not None` for the file-name attributes, the `..._on_disk` fields
mirror `os.access(..., os.R_OK)`, and `set_file` is `none` when the
attribute is `None`, `some true` for an open stream, `some false` for a
closed one. -/
structure VState where
  row_name_set : Bool
  col_name_set : Bool
  row_on_disk : Bool
  col_on_disk : Bool
  set_file : Option Bool
  data_on_disk : Bool
deriving DecidableEq

/-- The corresponding state of a `TrainingSet` object, which owns a
`ValidationSet`. -/
structure TState where
  row_name_set : Bool
  row_on_disk : Bool
  set_file : Option Bool
  data_on_disk : Bool
  validation : VState
deriving DecidableEq

/-- `os.remove`: raises unless the file exists; on success it is gone. -/
def os_remove (on_disk : Bool) : Except Unit Bool :=
  if on_disk then .ok false else .error ()

/-- `ValidationSet.cleanup` (create_sets.py lines 332-356): remove the
row-ordinal manifest if its name is set and the file is accessible,
likewise the column-ordinal manifest; if the data-stream attribute is not
`None`, close the stream if still open and remove the data file if
accessible. -/
def validation_cleanup (s : VState) : Except Unit VState := do
  let row ← if s.row_name_set && s.row_on_disk then os_remove s.row_on_disk
    else pure s.row_on_disk
  let col ← if s.col_name_set && s.col_on_disk then os_remove s.col_on_disk
    else pure s.col_on_disk
  match s.set_file with
  | none =>
      pure { s with row_on_disk := row, col_on_disk := col }
  | some _ =>
      do
        let dat ← if s.data_on_disk then os_remove s.data_on_disk
          else pure s.data_on_disk
        pure { s with row_on_disk := row, col_on_disk := col,
                      set_file := some false, data_on_disk := dat }

/-- `TrainingSet.cleanup` (create_sets.py lines 439-460): remove the
training set's own row-ordinal manifest and data file the same way, then
cascade to the owned validation set's `cleanup`. -/
def training_cleanup (s : TState) : Except Unit TState := do
  let row ← if s.row_name_set && s.row_on_disk then os_remove s.row_on_disk
    else pure s.row_on_disk
  let own : Option Bool × Bool ←
    match s.set_file with
    | none => pure (s.set_file, s.data_on_disk)
    | some _ =>
        do
          let dat ← if s.data_on_disk then os_remove s.data_on_disk
            else pure s.data_on_disk
          pure (some false, dat)
  let v ← validation_cleanup s.validation
  pure { row_name_set := s.row_name_set, row_on_disk := row,
         set_file := own.1, data_on_disk := own.2, validation := v }

/-- The state `ValidationSet.cleanup` leaves behind. -/
def validation_cleanup_result (s : VState) : VState :=
  { s with
    row_on_disk := s.row_on_disk && !s.row_name_set,
    col_on_disk := s.col_on_disk && !s.col_name_set,
    set_file := s.set_file.map fun _ => false,
    data_on_disk := if s.set_file.isSome then false else s.data_on_disk }

/-- The state `TrainingSet.cleanup` leaves behind. -/
def training_cleanup_result (s : TState) : TState :=
  { row_name_set := s.row_name_set,
    row_on_disk := s.row_on_disk && !s.row_name_set,
    set_file := s.set_file.map fun _ => false,
    data_on_disk := if s.set_file.isSome then false else s.data_on_disk,
    validation := validation_cleanup_result s.validation }

theorem validation_cleanup_ok (s : VState) :
    validation_cleanup s = .ok (validation_cleanup_result s) := by
  obtain ⟨rn, cn, ro, co, sf, dd⟩ := s
  rcases sf with _ | b <;> cases rn <;> cases cn <;> cases ro <;> cases co <;>
    cases dd <;> rfl

theorem validation_cleanup_result_idem (s : VState) :
    validation_cleanup_result (validation_cleanup_result s) =
      validation_cleanup_result s := by
  obtain ⟨rn, cn, ro, co, sf, dd⟩ := s
  rcases sf with _ | b <;> cases rn <;> cases cn <;> cases ro <;> cases co <;>
    cases dd <;> rfl

theorem training_cleanup_ok (s : TState) :
    training_cleanup s = .ok (training_cleanup_result s) := by
  obtain ⟨rn, ro, sf, dd, v⟩ := s
  rcases sf with _ | b <;> cases rn <;> cases ro <;> cases dd <;>
    (simp [training_cleanup, training_cleanup_result, validation_cleanup_ok,
      os_remove]
     try rfl)

theorem training_cleanup_result_idem (s : TState) :
    training_cleanup_result (training_cleanup_result s) =
      training_cleanup_result s := by
  obtain ⟨rn, ro, sf, dd, v⟩ := s
  rcases sf with _ | b <;> cases rn <;> cases ro <;> cases dd <;>
    simp [training_cleanup_result, validation_cleanup_result_idem]

/-- C8: `cleanup()` never raises and is idempotent: on any
partial-construction state (any combination of artifacts created or not,
data stream open, closed or never opened) it returns without exception a
state on which a second call returns the very same state, having removed
every artifact the object knows about (in a state reachable from the
constructors, an artifact on disk always has its name attribute set);
`TrainingSet.cleanup` additionally leaves its owned `ValidationSet`
exactly as that set's own `cleanup` would, cascading after removing its
own artifacts. -/
theorem cleanup_idempotent (sv : VState) (st : TState) :
    (validation_cleanup sv = .ok (validation_cleanup_result sv) ∧
     validation_cleanup (validation_cleanup_result sv) =
       .ok (validation_cleanup_result sv)) ∧
    (training_cleanup st = .ok (training_cleanup_result st) ∧
     training_cleanup (training_cleanup_result st) =
       .ok (training_cleanup_result st) ∧
     (training_cleanup_result st).validation =
       validation_cleanup_result st.validation) ∧
    ((sv.row_on_disk = true → sv.row_name_set = true) →
     (sv.col_on_disk = true → sv.col_name_set = true) →
     (sv.data_on_disk = true → sv.set_file.isSome = true) →
     (validation_cleanup_result sv).row_on_disk = false ∧
     (validation_cleanup_result sv).col_on_disk = false ∧
     (validation_cleanup_result sv).data_on_disk = false) := by
  refine ⟨⟨validation_cleanup_ok sv, ?_⟩,
          ⟨training_cleanup_ok st, ?_, rfl⟩, ?_⟩
  · rw [validation_cleanup_ok (validation_cleanup_result sv),
        validation_cleanup_result_idem]
  · rw [training_cleanup_ok (training_cleanup_result st),
        training_cleanup_result_idem]
  · intro h1 h2 h3
    obtain ⟨rn, cn, ro, co, sf, dd⟩ := sv
    cases ro <;> cases co <;> rcases sf with _ | b <;> cases dd <;>
      simp_all [validation_cleanup_result]

/-- Witness for C8 at a concrete partially-constructed state: both
manifest names set, row manifest on disk, column manifest never
created, stream open with data file on disk. -/
theorem cleanup_idempotent_witness :
    (validation_cleanup_result
        ⟨true, true, true, false, some true, true⟩).row_on_disk = false ∧
    (validation_cleanup_result
        ⟨true, true, true, false, some true, true⟩).col_on_disk = false ∧
    (validation_cleanup_result
        ⟨true, true, true, false, some true, true⟩).data_on_disk = false :=
  (cleanup_idempotent ⟨true, true, true, false, some true, true⟩
      ⟨true, true, some true, true,
        ⟨true, true, true, false, some true, true⟩⟩).2.2
    (fun _ => rfl) (fun h => nomatch h) (fun _ => rfl)

set_option maxHeartbeats 1000000 in
/-- C2 amended: if constructing set `k` of a batch raises errno 24 and
MORE THAN ONE set of the batch has already been constructed, the batch
stops at `k - 1` and returns the sets built so far with ending set number
`k - 1`, with the failed attempt's partial artifacts discarded — whenever
a `TrainingSet` construction fails with any exception, its constructors
have already removed via `cleanup()` everything the attempt put on disk
before the error reaches `create_selection_sets` (last conjunct); a
failure on the very first set of a batch, an errno-24 failure on the
second set (only one prior success), a non-24 `OSError`, or any other
exception is fatal (`sys.exit`). -/
theorem create_selection_sets_batching (build : ℤ → BuildOutcome)
    (s t : ℤ) (hs : 1 ≤ s) :
    (∀ k, s + 2 ≤ k → k ≤ min (s - 1 + t) t →
      (∀ i, s ≤ i → i < k → build i = .built) → build k = .osError 24 →
      create_selection_sets build s t = .ok (intRange s k, k - 1)) ∧
    (s ≤ min (s - 1 + t) t → build s ≠ .built →
      create_selection_sets build s t = .error ()) ∧
    (s + 1 ≤ min (s - 1 + t) t → build s = .built → build (s + 1) = .osError 24 →
      create_selection_sets build s t = .error ()) ∧
    (∀ k e, s ≤ k → k ≤ min (s - 1 + t) t →
      (∀ i, s ≤ i → i < k → build i = .built) →
      build k = .osError e → e ≠ 24 →
      create_selection_sets build s t = .error ()) ∧
    (∀ k, s ≤ k → k ≤ min (s - 1 + t) t →
      (∀ i, s ≤ i → i < k → build i = .built) → build k = .otherExc →
      create_selection_sets build s t = .error ()) ∧
    (∀ (t_available v_available : Option (List ℕ))
        (column_set : Option (List ℤ)) (sampledCols : List ℤ)
        (fl : Artifact → Bool) (e : InitErr),
      (training_set_init t_available v_available column_set sampledCols fl).1 =
        .error e →
      onDisk (training_set_init t_available v_available column_set
        sampledCols fl).2 = []) := by
  have hsplit : ∀ k, s ≤ k → k ≤ min (s - 1 + t) t →
      intRange s (min (s - 1 + t) t + 1) =
        intRange s k ++ k :: intRange (k + 1) (min (s - 1 + t) t + 1) := by
    intro k hk1 hk2
    rw [intRange_append hk1 (by omega : k ≤ min (s - 1 + t) t + 1),
        intRange_eq_cons (by omega : k < min (s - 1 + t) t + 1)]
  refine ⟨?_, ?_, ?_, ?_, ?_, ?_⟩
  · intro k hk2 hkend hok hfail
    simp only [create_selection_sets]
    rw [hsplit k (by omega) hkend]
    rw [create_sets_loop_split build (intRange s k) k _ [] _
        (fun i hi => hok i (mem_intRange.mp hi).1 (mem_intRange.mp hi).2)]
    rw [hfail]
    have hlen : 1 < (intRange s k).length := by
      rw [intRange_length]
      omega
    simp [hlen]
  · intro hsend hfail
    simp only [create_selection_sets]
    rw [intRange_eq_cons (by omega : s < min (s - 1 + t) t + 1)]
    simp only [create_sets_loop]
    cases hb : build s with
    | built => exact absurd hb hfail
    | osError e => simp
    | otherExc => rfl
  · intro hs1end hb1 hb2
    simp only [create_selection_sets]
    rw [intRange_eq_cons (by omega : s < min (s - 1 + t) t + 1)]
    simp only [create_sets_loop]
    rw [hb1]
    rw [intRange_eq_cons (by omega : s + 1 < min (s - 1 + t) t + 1)]
    simp only [create_sets_loop]
    rw [hb2]
    simp
  · intro k e hk1 hkend hok hfail he
    simp only [create_selection_sets]
    rw [hsplit k hk1 hkend]
    rw [create_sets_loop_split build (intRange s k) k _ [] _
        (fun i hi => hok i (mem_intRange.mp hi).1 (mem_intRange.mp hi).2)]
    rw [hfail]
    simp [he]
  · intro k hk1 hkend hok hfail
    simp only [create_selection_sets]
    rw [hsplit k hk1 hkend]
    rw [create_sets_loop_split build (intRange s k) k _ [] _
        (fun i hi => hok i (mem_intRange.mp hi).1 (mem_intRange.mp hi).2)]
    rw [hfail]
  · intro t_available v_available column_set sampledCols fl e h
    rcases t_available with _ | ta
    · rfl
    · rcases v_available with _ | va
      · rfl
      · rcases column_set with _ | cs <;>
          by_cases f1 : fl .vRowManifest <;>
          by_cases f2 : fl .vColManifest <;>
          by_cases f3 : fl .vDataFile <;>
          by_cases f4 : fl .tRowManifest <;>
          by_cases f5 : fl .tDataFile <;>
          simp_all [training_set_init, validation_set_init, onDisk]

/-- Witness for the amended C2 at concrete inputs: a batch of 5 where the
third construction hits errno 24 stops as `[1, 2]` with ending number 2;
a batch whose first construction hits errno 24 is fatal; a construction
attempt that fails opening its training data stream leaves nothing on
disk. -/
theorem create_selection_sets_batching_witness :
    create_selection_sets buildTwoThenExhaust 1 5 = .ok ([1, 2], 2) ∧
    create_selection_sets (fun _ => BuildOutcome.osError 24) 1 5 = .error () ∧
    onDisk (training_set_init (some [2]) (some [3]) none []
      (fun a => decide (a = Artifact.tDataFile))).2 = [] := by
  refine ⟨?_, ?_, ?_⟩
  · exact (create_selection_sets_batching buildTwoThenExhaust 1 5 (by norm_num)).1 3
      (by norm_num) (by norm_num)
      (fun i h1 h2 => by simp only [buildTwoThenExhaust, if_pos h2])
      (by norm_num [buildTwoThenExhaust])
  · exact (create_selection_sets_batching (fun _ => BuildOutcome.osError 24) 1 5
      (by norm_num)).2.1 (by norm_num) (by simp)
  · exact (create_selection_sets_batching (fun _ => BuildOutcome.osError 24) 1 5
      (by norm_num)).2.2.2.2.2 (some [2]) (some [3]) none []
      (fun a => decide (a = Artifact.tDataFile)) .osError rfl
